import Mathlib

/-
Verification of the c-ares doubly linked list (src/lib/ares__llist.c).

The list state is embedded shallowly:
 * node storage is an association list from node identifiers (the model of
   node pointers) to node records; a NULL node pointer is the value none;
 * the list structure (struct ares__llist) carries head, tail, destructor
   presence, count and the storage;
 * the caller supplied void pointer values are modelled as Option of an
   arbitrary type, none standing for NULL;
 * the destructor function pointer is modelled by a presence flag, and each
   operation that may invoke the destructor returns the list of values the
   destructor was invoked on, in invocation order;
 * every node handle refers to the single modelled list, which models the
   parent back-reference of struct ares__llist_node;
 * allocation of a node either succeeds, handing out a fresh identifier
   (identifiers are never reused), or fails; the outcome is an explicit
   argument of the insertion operations.
-/

set_option maxHeartbeats 1000000

namespace CaresLList

variable {α : Type}

/-- A node of the doubly linked list, struct ares__llist_node: the user
data pointer and the prev and next sibling pointers. The parent field is
implicit: every node handle in this development refers to the single
modelled list. -/
structure Node (α : Type) where
  data : Option α
  prev : Option Nat
  next : Option Nat
deriving DecidableEq

/-- Node storage: the allocated nodes, keyed by node identifier. -/
abbrev Mem (α : Type) := List (Nat × Node α)

/-- Read the node stored at identifier i, none if i is not allocated
(dereferencing such an identifier is undefined behavior in the source). -/
def memGet : Mem α → Nat → Option (Node α)
  | [], _ => none
  | p :: rest, i => if p.1 = i then some p.2 else memGet rest i

/-- Update the node stored at identifier i by f; no effect if i is not
allocated. -/
def memModify : Mem α → Nat → (Node α → Node α) → Mem α
  | [], _, _ => []
  | p :: rest, i, f =>
    if p.1 = i then (p.1, f p.2) :: memModify rest i f
    else p :: memModify rest i f

/-- Free the node stored at identifier i. -/
def memRemove : Mem α → Nat → Mem α
  | [], _ => []
  | p :: rest, i => if p.1 = i then memRemove rest i else p :: memRemove rest i

/-- The prev pointer of the node at i (none if i is not allocated). -/
def nodePrev (m : Mem α) (i : Nat) : Option Nat := (memGet m i).bind Node.prev

/-- The next pointer of the node at i (none if i is not allocated). -/
def nodeNext (m : Mem α) (i : Nat) : Option Nat := (memGet m i).bind Node.next

/-- The data of the node at i (none if i is not allocated). -/
def nodeData (m : Mem α) (i : Nat) : Option α := (memGet m i).bind Node.data

/-- The list object, struct ares__llist: head and tail pointers, the
destructor (modelled by its presence), the count of linked nodes and the
node storage. nextId is the allocator state: the next fresh identifier. -/
structure LList (α : Type) where
  head : Option Nat
  tail : Option Nat
  destructSet : Bool
  cnt : Nat
  mem : Mem α
  nextId : Nat
deriving DecidableEq

/-- ares__llist_create: an empty list (head, tail and cnt zeroed by
memset) with the given destructor. Allocation of the list object itself is
assumed to succeed; no claim concerns its failure. -/
def ares__llist_create (destructSet : Bool) : LList α :=
  { head := none, tail := none, destructSet := destructSet, cnt := 0,
    mem := [], nextId := 0 }

/-- ares__llist_replace_destructor: swap the destructor; no-op on a NULL
list. -/
def ares__llist_replace_destructor (l : Option (LList α)) (d : Bool) :
    Option (LList α) :=
  match l with
  | none => none
  | some ll => some { ll with destructSet := d }

/-- The insertion type enum ares__llist_insert_type_t. -/
inductive InsertType where
  | head
  | tail
  | before
deriving DecidableEq

/-- ares__llist_insert_at, the one positional insert algorithm all four
insertion operations route through. The NULL-list check of the source
(line 77) is performed by the nullable wrappers below; the val NULL check
is here. allocOk is the outcome of ares_malloc for the node. In the
before branch with a NULL target the source has already redirected to the
head branch, and with an unallocated target the source would read freed
memory (undefined behavior), modelled as a failed no-op; neither case is
reachable from the uses below. -/
def ares__llist_insert_at (l : LList α) (ty : InsertType) (at_ : Option Nat)
    (val : Option α) (allocOk : Bool) : Option Nat × LList α :=
  match val with
  | none => (none, l)
  | some v =>
    if allocOk then
      let nid := l.nextId
      let ty2 := if ty = InsertType.before ∧ (at_ = l.head ∨ at_ = none) then
        InsertType.head else ty
      match ty2 with
      | InsertType.head =>
        let nd : Node α := { data := some v, prev := none, next := l.head }
        let mem1 : Mem α :=
          match l.head with
          | some h => memModify l.mem h (fun x => { x with prev := some nid })
          | none => l.mem
        let head1 : Option Nat := some nid
        let tail1 : Option Nat := l.tail
        (some nid,
          { head := if head1 = none then some nid else head1,
            tail := if tail1 = none then some nid else tail1,
            destructSet := l.destructSet,
            cnt := l.cnt + 1,
            mem := (nid, nd) :: mem1,
            nextId := l.nextId + 1 })
      | InsertType.tail =>
        let nd : Node α := { data := some v, prev := l.tail, next := none }
        let mem1 : Mem α :=
          match l.tail with
          | some t => memModify l.mem t (fun x => { x with next := some nid })
          | none => l.mem
        let head1 : Option Nat := l.head
        let tail1 : Option Nat := some nid
        (some nid,
          { head := if head1 = none then some nid else head1,
            tail := if tail1 = none then some nid else tail1,
            destructSet := l.destructSet,
            cnt := l.cnt + 1,
            mem := (nid, nd) :: mem1,
            nextId := l.nextId + 1 })
      | InsertType.before =>
        match at_ with
        | none => (none, l)
        | some a =>
          match memGet l.mem a with
          | none => (none, l)
          | some an =>
            let nd : Node α := { data := some v, prev := an.prev, next := some a }
            let mem1 := memModify l.mem a (fun x => { x with prev := some nid })
            let head1 : Option Nat := l.head
            let tail1 : Option Nat := l.tail
            (some nid,
              { head := if head1 = none then some nid else head1,
                tail := if tail1 = none then some nid else tail1,
                destructSet := l.destructSet,
                cnt := l.cnt + 1,
                mem := (nid, nd) :: mem1,
                nextId := l.nextId + 1 })
    else (none, l)

/-- ares__llist_insert_first. A NULL list makes ares__llist_insert_at
return NULL with no effect. -/
def ares__llist_insert_first (l : Option (LList α)) (val : Option α)
    (allocOk : Bool) : Option Nat × Option (LList α) :=
  match l with
  | none => (none, none)
  | some ll =>
    let r := ares__llist_insert_at ll InsertType.head none val allocOk
    (r.1, some r.2)

/-- ares__llist_insert_last. -/
def ares__llist_insert_last (l : Option (LList α)) (val : Option α)
    (allocOk : Bool) : Option Nat × Option (LList α) :=
  match l with
  | none => (none, none)
  | some ll =>
    let r := ares__llist_insert_at ll InsertType.tail none val allocOk
    (r.1, some r.2)

/-- ares__llist_insert_before: NULL node is a no-op returning NULL;
otherwise the list is taken from the parent back-reference of the node,
which in this model is the single modelled list. -/
def ares__llist_insert_before (l : LList α) (node : Option Nat)
    (val : Option α) (allocOk : Bool) : Option Nat × LList α :=
  match node with
  | none => (none, l)
  | some n => ares__llist_insert_at l InsertType.before (some n) val allocOk

/-- ares__llist_insert_after: NULL node is a no-op returning NULL; a node
whose next pointer is NULL delegates to insert_last on its parent;
otherwise insert before the successor. Reading the next pointer of an
unallocated node is undefined behavior in the source, modelled as a
failed no-op. -/
def ares__llist_insert_after (l : LList α) (node : Option Nat)
    (val : Option α) (allocOk : Bool) : Option Nat × LList α :=
  match node with
  | none => (none, l)
  | some n =>
    match memGet l.mem n with
    | none => (none, l)
    | some nd =>
      match nd.next with
      | none => ares__llist_insert_at l InsertType.tail none val allocOk
      | some nxt =>
        ares__llist_insert_at l InsertType.before (some nxt) val allocOk

/-- ares__llist_node_first: NULL-safe head accessor. -/
def ares__llist_node_first (l : Option (LList α)) : Option Nat :=
  match l with
  | none => none
  | some ll => ll.head

/-- ares__llist_node_last: NULL-safe tail accessor. -/
def ares__llist_node_last (l : Option (LList α)) : Option Nat :=
  match l with
  | none => none
  | some ll => ll.tail

/-- ares__llist_node_next: NULL-safe successor accessor. -/
def ares__llist_node_next (l : LList α) (node : Option Nat) : Option Nat :=
  match node with
  | none => none
  | some n => nodeNext l.mem n

/-- ares__llist_node_prev: NULL-safe predecessor accessor. -/
def ares__llist_node_prev (l : LList α) (node : Option Nat) : Option Nat :=
  match node with
  | none => none
  | some n => nodePrev l.mem n

/-- ares__llist_node_val: NULL-safe value accessor. -/
def ares__llist_node_val (l : LList α) (node : Option Nat) : Option α :=
  match node with
  | none => none
  | some n => nodeData l.mem n

/-- ares__llist_len: 0 on a NULL list, else the cnt field. -/
def ares__llist_len (l : Option (LList α)) : Nat :=
  match l with
  | none => 0
  | some ll => ll.cnt

/-- ares__llist_first_val: composition of node_val and node_first. -/
def ares__llist_first_val (l : Option (LList α)) : Option α :=
  match l with
  | none => none
  | some ll => ares__llist_node_val ll (ares__llist_node_first l)

/-- ares__llist_last_val: composition of node_val and node_last. -/
def ares__llist_last_val (l : Option (LList α)) : Option α :=
  match l with
  | none => none
  | some ll => ares__llist_node_val ll (ares__llist_node_last l)

/-- ares__llist_node_claim: unlink the node, patching neighbor prev and
next pointers and the list boundaries, free the node and return its value.
The source performs no destructor invocation in this function, so the
invocation log (third component) is empty. Reading the fields of an
unallocated node is undefined behavior in the source, modelled as a
no-op. The cnt decrement is size_t arithmetic in the source; the wrap at
cnt = 0 is unreachable whenever the node is actually linked (then cnt is
at least 1), and Nat truncated subtraction is used. -/
def ares__llist_node_claim (l : LList α) (node : Option Nat) :
    Option α × LList α × List (Option α) :=
  match node with
  | none => (none, l, [])
  | some n =>
    match memGet l.mem n with
    | none => (none, l, [])
    | some nd =>
      let val := nd.data
      let mem1 : Mem α :=
        match nd.prev with
        | some p => memModify l.mem p (fun x => { x with next := nd.next })
        | none => l.mem
      let mem2 : Mem α :=
        match nd.next with
        | some q => memModify mem1 q (fun x => { x with prev := nd.prev })
        | none => mem1
      let head1 := if l.head = some n then nd.next else l.head
      let tail1 := if l.tail = some n then nd.prev else l.tail
      (val,
        { head := head1, tail := tail1, destructSet := l.destructSet,
          cnt := l.cnt - 1, mem := memRemove mem2 n, nextId := l.nextId },
        [])

/-- ares__llist_node_destroy: read the destructor from the parent list,
claim the node, then invoke the destructor if the claimed value and the
destructor are both non-NULL. The second component is the log of
destructor invocations. -/
def ares__llist_node_destroy (l : LList α) (node : Option Nat) :
    LList α × List (Option α) :=
  match node with
  | none => (l, [])
  | some n =>
    let destruct := l.destructSet
    let r := ares__llist_node_claim l (some n)
    match r.1 with
    | some v => if destruct then (r.2.1, r.2.2 ++ [some v]) else (r.2.1, r.2.2)
    | none => (r.2.1, r.2.2)

/-- ares__llist_node_replace: invoke the destructor (if set) on the old
data pointer, NULL or not, then overwrite the data with val. Only the
node is checked for NULL; val is not. -/
def ares__llist_node_replace (l : LList α) (node : Option Nat)
    (val : Option α) : LList α × List (Option α) :=
  match node with
  | none => (l, [])
  | some n =>
    match memGet l.mem n with
    | none => (l, [])
    | some nd =>
      let log := if l.destructSet then [nd.data] else []
      ({ l with mem := memModify l.mem n (fun x => { x with data := val }) },
        log)

/-- The while loop of ares__llist_destroy: destroy the first node until
the list is empty. Each iteration of the source loop frees one allocated
node, so the number of allocated nodes bounds the iteration count of any
terminating run; fuel makes the recursion structural. -/
def destroyLoop : Nat → LList α → LList α × List (Option α)
  | 0, l => (l, [])
  | fuel + 1, l =>
    match ares__llist_node_first (some l) with
    | none => (l, [])
    | some h =>
      let r := ares__llist_node_destroy l (some h)
      let r2 := destroyLoop fuel r.1
      (r2.1, r.2 ++ r2.2)

/-- ares__llist_destroy: destroy every node from the head, then free the
list object (the freed list is none). No-op on a NULL list. -/
def ares__llist_destroy (l : Option (LList α)) :
    Option (LList α) × List (Option α) :=
  match l with
  | none => (none, [])
  | some ll => (none, (destroyLoop (ll.mem.length + 1) ll).2)

/-- The chain of node identifiers reached by following next pointers,
starting from a given pointer. Fuel bounds the walk; a dangling pointer
ends the chain (following it is undefined behavior in the source). -/
def chainFrom (m : Mem α) : Nat → Option Nat → List Nat
  | 0, _ => []
  | _, none => []
  | fuel + 1, some n =>
    match memGet m n with
    | none => []
    | some nd => n :: chainFrom m fuel nd.next

/-- The head-to-tail next-chain of the list. -/
def nextChain (l : LList α) : List Nat :=
  chainFrom l.mem (l.mem.length + 1) l.head

/-- segb m p ns: the identifiers ns form a consecutive doubly linked
segment in storage m whose first node has prev pointer p and whose last
node has next pointer NULL. -/
def segb (m : Mem α) : Option Nat → List Nat → Bool
  | _, [] => true
  | p, n :: rest =>
    (memGet m n).isSome && (nodePrev m n == p) && (nodeNext m n == rest.head?)
      && segb m (some n) rest

/-- Chained l ns: ns is the head-to-tail chain of a well formed list
state l. The nodes of ns are doubly linked in order with NULL at both
outer ends, head and tail are the ends of ns, cnt is its length, ns has
no duplicates, all its identifiers are below the allocator counter, and
storage keys are unique. -/
abbrev Chained (l : LList α) (ns : List Nat) : Prop :=
  segb l.mem none ns = true ∧
  l.head = ns.head? ∧
  l.tail = ns.getLast? ∧
  l.cnt = ns.length ∧
  ns.Nodup ∧
  (∀ i ∈ ns, i < l.nextId) ∧
  (l.mem.map (fun p => p.1)).Nodup

/-- A concrete list over Nat values, built by repeated insert_last into a
fresh list with a destructor, every allocation succeeding. -/
def exList (vs : List Nat) : LList Nat :=
  vs.foldl
    (fun l v => (ares__llist_insert_at l InsertType.tail none (some v) true).2)
    (ares__llist_create true)

/-- The state reached by insert_last 1, insert_last 2, then insert_before
of 99 targeting the node holding 2 (identifier 1, a non-head node). -/
def bugList : LList Nat :=
  (ares__llist_insert_before (exList [1, 2]) (some 1) (some 99) true).2

/-- The state reached from bugList by claiming the node holding 2
(identifier 1) and then the node holding 1 (identifier 0). -/
def danglingList : LList Nat :=
  (ares__llist_node_claim
    (ares__llist_node_claim bugList (some 1)).2.1 (some 0)).2.1

example : (exList [1, 2]).cnt = 2 := by decide

example : nextChain (exList [1, 2, 3]) = [0, 1, 2] := by decide

example : Chained (exList [1, 2]) [0, 1] := by decide

example : bugList.cnt = 3 ∧ nextChain bugList = [0, 1] := by decide

example : ares__llist_len (some danglingList) = 1 ∧
    ares__llist_first_val (some danglingList) = none := by decide

theorem memGet_memModify (m : Mem α) (i : Nat) (f : Node α → Node α) (j : Nat) :
    memGet (memModify m i f) j =
      if j = i then (memGet m j).map f else memGet m j := by
  induction m with
  | nil => simp [memGet, memModify]
  | cons p rest ih =>
    by_cases hpi : p.1 = i
    · by_cases hpj : p.1 = j
      · have hji : j = i := by rw [← hpj, hpi]
        simp only [memModify, if_pos hpi, memGet, if_pos hpj, if_pos hji]
        rfl
      · simp only [memModify, if_pos hpi, memGet, if_neg hpj, ih]
    · by_cases hpj : p.1 = j
      · have hji : ¬ j = i := fun h => hpi (by rw [hpj, h])
        simp only [memModify, if_neg hpi, memGet, if_pos hpj, if_neg hji]
      · simp only [memModify, if_neg hpi, memGet, if_neg hpj, ih]

theorem memGet_memRemove (m : Mem α) (i j : Nat) :
    memGet (memRemove m i) j = if j = i then none else memGet m j := by
  induction m with
  | nil => simp [memGet, memRemove]
  | cons p rest ih =>
    by_cases hpi : p.1 = i
    · by_cases hpj : p.1 = j
      · have hji : j = i := by rw [← hpj, hpi]
        simp only [memRemove, if_pos hpi, ih, if_pos hji]
      · simp only [memRemove, if_pos hpi, ih, memGet, if_neg hpj]
    · by_cases hpj : p.1 = j
      · have hji : ¬ j = i := fun h => hpi (by rw [hpj, h])
        simp only [memRemove, if_neg hpi, memGet, if_pos hpj, if_neg hji]
      · simp only [memRemove, if_neg hpi, memGet, if_neg hpj, ih]

theorem memRemove_sublist (m : Mem α) (i : Nat) :
    List.Sublist (memRemove m i) m := by
  induction m with
  | nil => simp [memRemove]
  | cons p rest ih =>
    by_cases hpi : p.1 = i
    · rw [memRemove, if_pos hpi]
      exact ih.cons p
    · rw [memRemove, if_neg hpi]
      exact ih.cons₂ p

theorem memModify_keys (m : Mem α) (i : Nat) (f : Node α → Node α) :
    (memModify m i f).map (fun p => p.1) = m.map (fun p => p.1) := by
  induction m with
  | nil => simp [memModify]
  | cons p rest ih =>
    by_cases hpi : p.1 = i
    · simp only [memModify, if_pos hpi, List.map_cons, ih]
    · simp only [memModify, if_neg hpi, List.map_cons, ih]

theorem memGet_isSome_mem (m : Mem α) (i : Nat)
    (h : (memGet m i).isSome = true) : i ∈ m.map (fun p => p.1) := by
  induction m with
  | nil => simp [memGet] at h
  | cons p rest ih =>
    by_cases hpi : p.1 = i
    · simp [hpi]
    · rw [memGet, if_neg hpi] at h
      simp [ih h]

theorem nodePrev_congr {m m' : Mem α} {i : Nat}
    (h : memGet m' i = memGet m i) : nodePrev m' i = nodePrev m i := by
  simp [nodePrev, h]

theorem nodeNext_congr {m m' : Mem α} {i : Nat}
    (h : memGet m' i = memGet m i) : nodeNext m' i = nodeNext m i := by
  simp [nodeNext, h]

theorem nodeData_congr {m m' : Mem α} {i : Nat}
    (h : memGet m' i = memGet m i) : nodeData m' i = nodeData m i := by
  simp [nodeData, h]

theorem segb_cons (m : Mem α) (p : Option Nat) (n : Nat) (rest : List Nat) :
    segb m p (n :: rest) = true ↔
      (memGet m n).isSome = true ∧ nodePrev m n = p ∧
        nodeNext m n = rest.head? ∧ segb m (some n) rest = true := by
  simp [segb, Bool.and_eq_true, and_assoc]

theorem segb_congr {m m' : Mem α} :
    ∀ (ns : List Nat) (p : Option Nat),
      (∀ i ∈ ns, memGet m' i = memGet m i) →
      segb m p ns = true → segb m' p ns = true := by
  intro ns
  induction ns with
  | nil => intro p _ _; rfl
  | cons n rest ih =>
    intro p hag h
    rw [segb_cons] at h ⊢
    have hn : memGet m' n = memGet m n := hag n (List.mem_cons_self n rest)
    obtain ⟨h1, h2, h3, h4⟩ := h
    exact ⟨by rw [hn]; exact h1,
      by rw [nodePrev_congr hn]; exact h2,
      by rw [nodeNext_congr hn]; exact h3,
      ih (some n) (fun i hi => hag i (List.mem_cons_of_mem n hi)) h4⟩

theorem segb_allocated {m : Mem α} :
    ∀ (ns : List Nat) (p : Option Nat), segb m p ns = true →
      ∀ i ∈ ns, (memGet m i).isSome = true := by
  intro ns
  induction ns with
  | nil => intro p _ i hi; cases hi
  | cons n rest ih =>
    intro p h i hi
    rw [segb_cons] at h
    rcases List.mem_cons.mp hi with hin | hir
    · rw [hin]; exact h.1
    · exact ih (some n) h.2.2.2 i hir

/-- C1: violated by the source. After insert_last 1, insert_last 2 and a
successful insert_before of 99 targeting the non-head node holding 2, the
cnt field is 3 but only the two original nodes are reachable by following
next from head: the INSERT_BEFORE branch never updates the predecessor
next pointer, so the new node (identifier 2) is absent from the
head-to-tail next-chain. -/
theorem llist_count_chain_mismatch :
    bugList.cnt = 3 ∧ ares__llist_len (some bugList) = 3 ∧
    nextChain bugList = [0, 1] ∧ (nextChain bugList).length = 2 := by
  decide

/-- C2: violated by the source. In the list [1, 2] (identifiers 0, 1),
insert_before of 99 on the linked non-head node 1 succeeds and returns
the new node 2; the new node points at node 1, node 1 points back at it,
and the new node records predecessor 0, but the former predecessor node 0
still has next pointer 1, not 2 — so the new node is not node 1's
predecessor in the head-to-tail next-chain (it is not in that chain at
all), although cnt was incremented. -/
theorem insert_before_skips_predecessor_next :
    (ares__llist_insert_before (exList [1, 2]) (some 1) (some 99) true).1 =
      some 2 ∧
    nodeNext bugList.mem 2 = some 1 ∧
    nodePrev bugList.mem 1 = some 2 ∧
    nodePrev bugList.mem 2 = some 0 ∧
    nodeNext bugList.mem 0 = some 1 ∧
    2 ∉ nextChain bugList ∧
    bugList.cnt = 3 := by
  decide

/-- C3 counterexample: on the empty list, node_first is NULL, so
insert_before is a no-op returning NULL, while insert_first succeeds and
returns a node; the two are not equivalent there. -/
theorem insert_before_first_empty_differs :
    (ares__llist_insert_first (some (exList [])) (some 1) true).1 = some 0 ∧
    ares__llist_len
      (ares__llist_insert_first (some (exList [])) (some 1) true).2 = 1 ∧
    (ares__llist_insert_before (exList [])
      (ares__llist_node_first (some (exList []))) (some 1) true).1 = none ∧
    ((ares__llist_insert_before (exList [])
      (ares__llist_node_first (some (exList []))) (some 1) true).2).cnt = 0 := by
  decide

/-- C3 (amended): for every list state whose head pointer is non-NULL,
insert_before targeting node_first of the list returns the same node and
produces the same list state as insert_first with the same value and
allocation outcome; on the empty list the two differ (insert_before is a
no-op on the NULL node). -/
theorem insert_before_head_eq_insert_first (l : LList α) (hd : Nat)
    (v : Option α) (ok : Bool) (h : l.head = some hd) :
    (ares__llist_insert_first (some l) v ok).1 =
      (ares__llist_insert_before l (ares__llist_node_first (some l)) v ok).1 ∧
    (ares__llist_insert_first (some l) v ok).2 =
      some (ares__llist_insert_before l
        (ares__llist_node_first (some l)) v ok).2 := by
  have hnf : ares__llist_node_first (some l) = some hd := by
    simp [ares__llist_node_first, h]
  rw [hnf]
  have key : ares__llist_insert_at l InsertType.before (some hd) v ok =
      ares__llist_insert_at l InsertType.head none v ok := by
    cases v with
    | none => rfl
    | some v' =>
      cases ok with
      | false => rfl
      | true => simp [ares__llist_insert_at, h]
  constructor
  · simp [ares__llist_insert_first, ares__llist_insert_before, key]
  · simp [ares__llist_insert_first, ares__llist_insert_before, key]

theorem insert_before_head_eq_insert_first_inst :
    (exList [1, 2]).head = some 0 ∧
    ((ares__llist_insert_first (some (exList [1, 2])) (some 5) true).1 =
      (ares__llist_insert_before (exList [1, 2])
        (ares__llist_node_first (some (exList [1, 2]))) (some 5) true).1 ∧
    (ares__llist_insert_first (some (exList [1, 2])) (some 5) true).2 =
      some (ares__llist_insert_before (exList [1, 2])
        (ares__llist_node_first (some (exList [1, 2]))) (some 5) true).2) :=
  ⟨by decide,
    insert_before_head_eq_insert_first (exList [1, 2]) 0 (some 5) true
      (by decide)⟩

/-- C4 counterexample: on the empty list, node_last is NULL, so
insert_after is a no-op returning NULL, while insert_last succeeds. -/
theorem insert_after_last_empty_differs :
    (ares__llist_insert_last (some (exList [])) (some 1) true).1 = some 0 ∧
    ares__llist_len
      (ares__llist_insert_last (some (exList [])) (some 1) true).2 = 1 ∧
    (ares__llist_insert_after (exList [])
      (ares__llist_node_last (some (exList []))) (some 1) true).1 = none ∧
    ((ares__llist_insert_after (exList [])
      (ares__llist_node_last (some (exList []))) (some 1) true).2).cnt = 0 := by
  decide

/-- C4 (amended): for every list state whose tail pointer refers to an
allocated node with NULL next pointer (true of the tail of every well
formed non-empty list), insert_after targeting node_last of the list
returns the same node and produces the same list state as insert_last
with the same value and allocation outcome; on the empty list the two
differ (insert_after is a no-op on the NULL node). -/
theorem insert_after_tail_eq_insert_last (l : LList α) (t : Nat)
    (nd : Node α) (v : Option α) (ok : Bool) (h : l.tail = some t)
    (hnd : memGet l.mem t = some nd) (hnext : nd.next = none) :
    (ares__llist_insert_last (some l) v ok).1 =
      (ares__llist_insert_after l (ares__llist_node_last (some l)) v ok).1 ∧
    (ares__llist_insert_last (some l) v ok).2 =
      some (ares__llist_insert_after l
        (ares__llist_node_last (some l)) v ok).2 := by
  have hnl : ares__llist_node_last (some l) = some t := by
    simp [ares__llist_node_last, h]
  rw [hnl]
  constructor
  · simp [ares__llist_insert_last, ares__llist_insert_after, hnd, hnext]
  · simp [ares__llist_insert_last, ares__llist_insert_after, hnd, hnext]

theorem insert_after_tail_eq_insert_last_inst :
    ((exList [1, 2]).tail = some 1 ∧
     memGet (exList [1, 2]).mem 1 = some ⟨some 2, some 0, none⟩ ∧
     (⟨some 2, some 0, none⟩ : Node Nat).next = none) ∧
    ((ares__llist_insert_last (some (exList [1, 2])) (some 7) true).1 =
      (ares__llist_insert_after (exList [1, 2])
        (ares__llist_node_last (some (exList [1, 2]))) (some 7) true).1 ∧
    (ares__llist_insert_last (some (exList [1, 2])) (some 7) true).2 =
      some (ares__llist_insert_after (exList [1, 2])
        (ares__llist_node_last (some (exList [1, 2]))) (some 7) true).2) :=
  ⟨⟨by decide, by decide, by decide⟩,
    insert_after_tail_eq_insert_last (exList [1, 2]) 1 ⟨some 2, some 0, none⟩
      (some 7) true (by decide) (by decide) (by decide)⟩

/-- C6: ares__llist_node_claim performs no destructor invocation on any
input, it hands the stored value of an allocated node back to the caller,
and ares__llist_node_destroy invokes the destructor exactly once, with
exactly the stored value, when that value is non-NULL and the destructor
is set, and zero times otherwise. -/
theorem claim_no_destruct_destroy_once (l : LList α) (n : Nat)
    (nd : Node α) (hnd : memGet l.mem n = some nd) :
    (∀ node, (ares__llist_node_claim l node).2.2 = []) ∧
    (ares__llist_node_claim l (some n)).1 = nd.data ∧
    (ares__llist_node_destroy l (some n)).2 =
      (match nd.data with
       | some v => if l.destructSet then [some v] else []
       | none => []) := by
  have hlog : ∀ node, (ares__llist_node_claim l node).2.2 = [] := by
    intro node
    cases node with
    | none => rfl
    | some k => cases hk : memGet l.mem k <;> simp [ares__llist_node_claim, hk]
  have hval : (ares__llist_node_claim l (some n)).1 = nd.data := by
    simp [ares__llist_node_claim, hnd]
  refine ⟨hlog, hval, ?_⟩
  cases hd : nd.data with
  | none => simp [ares__llist_node_destroy, hval, hd, hlog]
  | some v =>
    by_cases hds : l.destructSet <;>
      simp [ares__llist_node_destroy, hval, hd, hds, hlog]

theorem claim_no_destruct_destroy_once_inst :
    memGet (exList [1]).mem 0 = some ⟨some 1, none, none⟩ ∧
    ((∀ node, (ares__llist_node_claim (exList [1]) node).2.2 = []) ∧
    (ares__llist_node_claim (exList [1]) (some 0)).1 =
      (⟨some 1, none, none⟩ : Node Nat).data ∧
    (ares__llist_node_destroy (exList [1]) (some 0)).2 =
      (match (⟨some 1, none, none⟩ : Node Nat).data with
       | some v => if (exList [1]).destructSet then [some v] else []
       | none => [])) :=
  ⟨by decide,
    claim_no_destruct_destroy_once (exList [1]) 0 ⟨some 1, none, none⟩
      (by decide)⟩

/-- C8: when node allocation fails, every insertion operation returns
NULL and the list state, including every node already stored, is
completely unchanged; the source returns right after the failed
ares_malloc, before touching any link. The node-relative insertions are
stated for an allocated target node, as dereferencing the target happens
before the allocation in the source. -/
theorem insert_alloc_fail_unchanged (l : LList α) (ty : InsertType)
    (at_ : Option Nat) (v : α) (n : Nat) (nd : Node α)
    (hnd : memGet l.mem n = some nd) :
    ares__llist_insert_at l ty at_ (some v) false = (none, l) ∧
    ares__llist_insert_first (some l) (some v) false = (none, some l) ∧
    ares__llist_insert_last (some l) (some v) false = (none, some l) ∧
    ares__llist_insert_before l (some n) (some v) false = (none, l) ∧
    ares__llist_insert_after l (some n) (some v) false = (none, l) := by
  have base : ∀ (ty' : InsertType) (at' : Option Nat),
      ares__llist_insert_at l ty' at' (some v) false = (none, l) :=
    fun _ _ => rfl
  refine ⟨base ty at_, ?_, ?_, ?_, ?_⟩
  · simp [ares__llist_insert_first, base]
  · simp [ares__llist_insert_last, base]
  · simp [ares__llist_insert_before, base]
  · cases hnx : nd.next <;>
      simp [ares__llist_insert_after, hnd, hnx, base]

theorem insert_alloc_fail_unchanged_inst :
    memGet (exList [1]).mem 0 = some ⟨some 1, none, none⟩ ∧
    (ares__llist_insert_at (exList [1]) InsertType.head none (some 5) false =
      (none, exList [1]) ∧
    ares__llist_insert_first (some (exList [1])) (some 5) false =
      (none, some (exList [1])) ∧
    ares__llist_insert_last (some (exList [1])) (some 5) false =
      (none, some (exList [1])) ∧
    ares__llist_insert_before (exList [1]) (some 0) (some 5) false =
      (none, exList [1]) ∧
    ares__llist_insert_after (exList [1]) (some 0) (some 5) false =
      (none, exList [1])) :=
  ⟨by decide,
    insert_alloc_fail_unchanged (exList [1]) InsertType.head none 5 0
      ⟨some 1, none, none⟩ (by decide)⟩

/-- C9 counterexample: ares__llist_node_replace with a NULL value on the
singleton list holding 1 (destructor set) is not a no-op: the destructor
is invoked on the old value 1 and the stored value is overwritten with
NULL. The source checks only the node for NULL in node_replace, not the
value. -/
theorem node_replace_null_val_not_noop :
    ares__llist_node_replace (exList [1]) (some 0) none ≠ (exList [1], []) ∧
    (ares__llist_node_replace (exList [1]) (some 0) none).2 = [some 1] ∧
    nodeData (ares__llist_node_replace (exList [1]) (some 0) none).1.mem 0 =
      none := by
  decide

/-- C9 (amended): passing an absent list, node or value is a no-op
returning an absent or default result for the insertion operations (absent
list or value), for claim, node_destroy, node_replace and the accessors
(absent node), and for list destroy (absent list); the one exception is
node_replace with an absent value, which is a no-op only on an absent
node: on a real node it still invokes the destructor (if set) on the old
stored value and overwrites the stored value with NULL. -/
theorem null_arg_noop_amended (l : LList α) (v : Option α) (ok : Bool)
    (n : Nat) (nd : Node α) (hnd : memGet l.mem n = some nd) :
    ares__llist_insert_first (none : Option (LList α)) v ok = (none, none) ∧
    ares__llist_insert_last (none : Option (LList α)) v ok = (none, none) ∧
    ares__llist_insert_first (some l) none ok = (none, some l) ∧
    ares__llist_insert_last (some l) none ok = (none, some l) ∧
    ares__llist_insert_before l none v ok = (none, l) ∧
    ares__llist_insert_after l none v ok = (none, l) ∧
    ares__llist_insert_before l (some n) none ok = (none, l) ∧
    ares__llist_insert_after l (some n) none ok = (none, l) ∧
    ares__llist_node_claim l none = (none, l, []) ∧
    ares__llist_node_destroy l none = (l, []) ∧
    ares__llist_node_replace l none v = (l, []) ∧
    ares__llist_node_val l none = none ∧
    ares__llist_node_next l none = none ∧
    ares__llist_node_prev l none = none ∧
    ares__llist_node_first (none : Option (LList α)) = none ∧
    ares__llist_node_last (none : Option (LList α)) = none ∧
    ares__llist_len (none : Option (LList α)) = 0 ∧
    ares__llist_first_val (none : Option (LList α)) = none ∧
    ares__llist_last_val (none : Option (LList α)) = none ∧
    ares__llist_destroy (none : Option (LList α)) = (none, []) ∧
    ares__llist_node_replace l (some n) none =
      ({ l with mem := memModify l.mem n (fun x => { x with data := none }) },
        if l.destructSet then [nd.data] else []) := by
  refine ⟨rfl, rfl, rfl, rfl, rfl, rfl, rfl, ?_, rfl, rfl, rfl, rfl, rfl,
    rfl, rfl, rfl, rfl, rfl, rfl, rfl, ?_⟩
  · cases hnx : nd.next <;>
      simp [ares__llist_insert_after, hnd, hnx, ares__llist_insert_at]
  · simp [ares__llist_node_replace, hnd]

theorem null_arg_noop_amended_inst :
    memGet (exList [1]).mem 0 = some ⟨some 1, none, none⟩ ∧
    (ares__llist_insert_first (none : Option (LList Nat)) (some 5) true =
      (none, none) ∧
    ares__llist_insert_last (none : Option (LList Nat)) (some 5) true =
      (none, none) ∧
    ares__llist_insert_first (some (exList [1])) none true =
      (none, some (exList [1])) ∧
    ares__llist_insert_last (some (exList [1])) none true =
      (none, some (exList [1])) ∧
    ares__llist_insert_before (exList [1]) none (some 5) true =
      (none, exList [1]) ∧
    ares__llist_insert_after (exList [1]) none (some 5) true =
      (none, exList [1]) ∧
    ares__llist_insert_before (exList [1]) (some 0) none true =
      (none, exList [1]) ∧
    ares__llist_insert_after (exList [1]) (some 0) none true =
      (none, exList [1]) ∧
    ares__llist_node_claim (exList [1]) none = (none, exList [1], []) ∧
    ares__llist_node_destroy (exList [1]) none = (exList [1], []) ∧
    ares__llist_node_replace (exList [1]) none (some 5) = (exList [1], []) ∧
    ares__llist_node_val (exList [1]) none = none ∧
    ares__llist_node_next (exList [1]) none = none ∧
    ares__llist_node_prev (exList [1]) none = none ∧
    ares__llist_node_first (none : Option (LList Nat)) = none ∧
    ares__llist_node_last (none : Option (LList Nat)) = none ∧
    ares__llist_len (none : Option (LList Nat)) = 0 ∧
    ares__llist_first_val (none : Option (LList Nat)) = none ∧
    ares__llist_last_val (none : Option (LList Nat)) = none ∧
    ares__llist_destroy (none : Option (LList Nat)) = (none, []) ∧
    ares__llist_node_replace (exList [1]) (some 0) none =
      ({ exList [1] with
          mem := memModify (exList [1]).mem 0
            (fun x => { x with data := none }) },
        if (exList [1]).destructSet then [(⟨some 1, none, none⟩ : Node Nat).data]
        else [])) :=
  ⟨by decide,
    null_arg_noop_amended (exList [1]) (some 5) true 0 ⟨some 1, none, none⟩
      (by decide)⟩

/-- C10: violated by the source through the missing predecessor-next
update of INSERT_BEFORE. Using only create, insertions, claim and destroy
(never replace): after insert_last 1, insert_last 2, insert_before 99 on
the node holding 2, then claiming the node holding 2 and the node holding
1, the list still holds the node with value 99 and len is 1, yet the head
pointer refers to a freed node, so first_val reads an absent value from a
non-empty list (a use-after-free in the source). The non-null-storage
part of the claim does hold: every successful insertion stores a non-NULL
value. -/
theorem first_val_empty_iff_broken :
    ares__llist_len (some danglingList) = 1 ∧
    danglingList.head = some 1 ∧
    memGet danglingList.mem 1 = none ∧
    ares__llist_first_val (some danglingList) = none ∧
    nodeData danglingList.mem 2 = some 99 := by
  decide

theorem nodeData_memModify_prev (m : Mem α) (i j : Nat) (v : Option Nat) :
    nodeData (memModify m i (fun x => { x with prev := v })) j =
      nodeData m j := by
  unfold nodeData
  rw [memGet_memModify]
  by_cases hj : j = i
  · rw [if_pos hj]; cases memGet m j <;> rfl
  · rw [if_neg hj]

theorem nodeData_memModify_next (m : Mem α) (i j : Nat) (v : Option Nat) :
    nodeData (memModify m i (fun x => { x with next := v })) j =
      nodeData m j := by
  unfold nodeData
  rw [memGet_memModify]
  by_cases hj : j = i
  · rw [if_pos hj]; cases memGet m j <;> rfl
  · rw [if_neg hj]

/-- C5: for every linked node n of the modelled list — an allocated node
whose neighbor pointers have the shape every node of a well formed list
has (no self loop, distinct allocated neighbors, positive count) —
ares__llist_node_claim returns the stored value, decrements cnt by
exactly one, frees the node's own storage, patches the predecessor's next
pointer to n's successor and the successor's prev pointer to n's
predecessor, replaces head (resp. tail) by n's successor
(resp. predecessor) exactly when n was that boundary, and leaves the
stored value of every other node unchanged. -/
theorem node_claim_unlinks (l : LList α) (n : Nat) (nd : Node α)
    (hnd : memGet l.mem n = some nd)
    (hpn : nd.prev ≠ some n) (hqn : nd.next ≠ some n)
    (hpq : nd.prev = none ∨ nd.next = none ∨ nd.prev ≠ nd.next)
    (hpa : ∀ p, nd.prev = some p → (memGet l.mem p).isSome = true)
    (hqa : ∀ q, nd.next = some q → (memGet l.mem q).isSome = true)
    (hcnt : 0 < l.cnt) :
    (ares__llist_node_claim l (some n)).1 = nd.data ∧
    (ares__llist_node_claim l (some n)).2.1.cnt + 1 = l.cnt ∧
    memGet (ares__llist_node_claim l (some n)).2.1.mem n = none ∧
    (∀ p, nd.prev = some p →
      nodeNext (ares__llist_node_claim l (some n)).2.1.mem p = nd.next) ∧
    (∀ q, nd.next = some q →
      nodePrev (ares__llist_node_claim l (some n)).2.1.mem q = nd.prev) ∧
    (ares__llist_node_claim l (some n)).2.1.head =
      (if l.head = some n then nd.next else l.head) ∧
    (ares__llist_node_claim l (some n)).2.1.tail =
      (if l.tail = some n then nd.prev else l.tail) ∧
    (∀ x, x ≠ n →
      nodeData (ares__llist_node_claim l (some n)).2.1.mem x =
        nodeData l.mem x) := by
  rcases hp : nd.prev with _ | p <;> rcases hq : nd.next with _ | q
  · simp only [ares__llist_node_claim, hnd, hp, hq]
    refine ⟨trivial, by omega, ?_, ?_, ?_, trivial, trivial, ?_⟩
    · rw [memGet_memRemove, if_pos rfl]
    · intro p' hcon; cases hcon
    · intro q' hcon; cases hcon
    · intro x hx
      unfold nodeData
      rw [memGet_memRemove, if_neg hx]
  · have hq_n : q ≠ n := fun h => hqn (by rw [hq, h])
    obtain ⟨nq, hnq⟩ := Option.isSome_iff_exists.mp (hqa q hq)
    simp only [ares__llist_node_claim, hnd, hp, hq]
    refine ⟨trivial, by omega, ?_, ?_, ?_, trivial, trivial, ?_⟩
    · rw [memGet_memRemove, if_pos rfl]
    · intro p' hcon; cases hcon
    · intro q' hq'
      have hqq : q' = q := by injection hq' with h; exact h.symm
      subst hqq
      unfold nodePrev
      rw [memGet_memRemove, if_neg hq_n, memGet_memModify, if_pos rfl, hnq]
      rfl
    · intro x hx
      have h1 : memGet (memRemove (memModify l.mem q
          (fun x => { x with prev := none })) n) x =
          memGet (memModify l.mem q (fun x => { x with prev := none })) x := by
        rw [memGet_memRemove, if_neg hx]
      rw [nodeData_congr h1, nodeData_memModify_prev]
  · have hp_n : p ≠ n := fun h => hpn (by rw [hp, h])
    obtain ⟨np, hnp⟩ := Option.isSome_iff_exists.mp (hpa p hp)
    simp only [ares__llist_node_claim, hnd, hp, hq]
    refine ⟨trivial, by omega, ?_, ?_, ?_, trivial, trivial, ?_⟩
    · rw [memGet_memRemove, if_pos rfl]
    · intro p' hp'
      have hpp : p' = p := by injection hp' with h; exact h.symm
      subst hpp
      unfold nodeNext
      rw [memGet_memRemove, if_neg hp_n, memGet_memModify, if_pos rfl, hnp]
      rfl
    · intro q' hcon; cases hcon
    · intro x hx
      have h1 : memGet (memRemove (memModify l.mem p
          (fun x => { x with next := none })) n) x =
          memGet (memModify l.mem p (fun x => { x with next := none })) x := by
        rw [memGet_memRemove, if_neg hx]
      rw [nodeData_congr h1, nodeData_memModify_next]
  · have hp_n : p ≠ n := fun h => hpn (by rw [hp, h])
    have hq_n : q ≠ n := fun h => hqn (by rw [hq, h])
    have hp_q : p ≠ q := by
      rcases hpq with h | h | h
      · rw [hp] at h; cases h
      · rw [hq] at h; cases h
      · intro hc; exact h (by rw [hp, hq, hc])
    obtain ⟨np, hnp⟩ := Option.isSome_iff_exists.mp (hpa p hp)
    obtain ⟨nq, hnq⟩ := Option.isSome_iff_exists.mp (hqa q hq)
    simp only [ares__llist_node_claim, hnd, hp, hq]
    refine ⟨trivial, by omega, ?_, ?_, ?_, trivial, trivial, ?_⟩
    · rw [memGet_memRemove, if_pos rfl]
    · intro p' hp'
      have hpp : p' = p := by injection hp' with h; exact h.symm
      subst hpp
      unfold nodeNext
      rw [memGet_memRemove, if_neg hp_n, memGet_memModify, if_neg hp_q,
        memGet_memModify, if_pos rfl, hnp]
      rfl
    · intro q' hq'
      have hqq : q' = q := by injection hq' with h; exact h.symm
      subst hqq
      unfold nodePrev
      rw [memGet_memRemove, if_neg hq_n, memGet_memModify, if_pos rfl,
        memGet_memModify, if_neg (Ne.symm hp_q), hnq]
      rfl
    · intro x hx
      have h1 : memGet (memRemove (memModify (memModify l.mem p
          (fun x => { x with next := some q })) q
          (fun x => { x with prev := some p })) n) x =
          memGet (memModify (memModify l.mem p
          (fun x => { x with next := some q })) q
          (fun x => { x with prev := some p })) x := by
        rw [memGet_memRemove, if_neg hx]
      rw [nodeData_congr h1, nodeData_memModify_prev, nodeData_memModify_next]

theorem node_claim_unlinks_inst :
    (memGet (exList [1, 2, 3]).mem 1 = some ⟨some 2, some 0, some 2⟩ ∧
     0 < (exList [1, 2, 3]).cnt) ∧
    ((ares__llist_node_claim (exList [1, 2, 3]) (some 1)).1 =
      (⟨some 2, some 0, some 2⟩ : Node Nat).data ∧
    (ares__llist_node_claim (exList [1, 2, 3]) (some 1)).2.1.cnt + 1 =
      (exList [1, 2, 3]).cnt ∧
    memGet (ares__llist_node_claim (exList [1, 2, 3]) (some 1)).2.1.mem 1 =
      none ∧
    (∀ p, (⟨some 2, some 0, some 2⟩ : Node Nat).prev = some p →
      nodeNext
        (ares__llist_node_claim (exList [1, 2, 3]) (some 1)).2.1.mem p =
        (⟨some 2, some 0, some 2⟩ : Node Nat).next) ∧
    (∀ q, (⟨some 2, some 0, some 2⟩ : Node Nat).next = some q →
      nodePrev
        (ares__llist_node_claim (exList [1, 2, 3]) (some 1)).2.1.mem q =
        (⟨some 2, some 0, some 2⟩ : Node Nat).prev) ∧
    (ares__llist_node_claim (exList [1, 2, 3]) (some 1)).2.1.head =
      (if (exList [1, 2, 3]).head = some 1
        then (⟨some 2, some 0, some 2⟩ : Node Nat).next
        else (exList [1, 2, 3]).head) ∧
    (ares__llist_node_claim (exList [1, 2, 3]) (some 1)).2.1.tail =
      (if (exList [1, 2, 3]).tail = some 1
        then (⟨some 2, some 0, some 2⟩ : Node Nat).prev
        else (exList [1, 2, 3]).tail) ∧
    (∀ x, x ≠ 1 →
      nodeData
        (ares__llist_node_claim (exList [1, 2, 3]) (some 1)).2.1.mem x =
        nodeData (exList [1, 2, 3]).mem x)) :=
  ⟨⟨by decide, by decide⟩,
    node_claim_unlinks (exList [1, 2, 3]) 1 ⟨some 2, some 0, some 2⟩
      (by decide) (by decide) (by decide) (by decide)
      (fun p hp => by injection hp with h; subst h; decide)
      (fun q hq => by injection hq with h; subst h; decide)
      (by decide)⟩

theorem claim_log_nil (l : LList α) (node : Option Nat) :
    (ares__llist_node_claim l node).2.2 = [] := by
  cases node with
  | none => rfl
  | some k => cases hk : memGet l.mem k <;> simp [ares__llist_node_claim, hk]

theorem node_claim_head (l : LList α) (n : Nat) (rest : List Nat)
    (h : Chained l (n :: rest)) :
    (ares__llist_node_claim l (some n)).1 = nodeData l.mem n ∧
    Chained (ares__llist_node_claim l (some n)).2.1 rest ∧
    (ares__llist_node_claim l (some n)).2.1.destructSet = l.destructSet ∧
    (∀ x ∈ rest, nodeData (ares__llist_node_claim l (some n)).2.1.mem x =
      nodeData l.mem x) := by
  obtain ⟨hseg, hhead, htail, hcnt, hnodup, hfresh, hkeys⟩ := h
  rw [segb_cons] at hseg
  obtain ⟨halloc, hprev, hnext, hseg2⟩ := hseg
  obtain ⟨nd, hnd⟩ := Option.isSome_iff_exists.mp halloc
  have hndprev : nd.prev = none := by
    unfold nodePrev at hprev; rw [hnd] at hprev; exact hprev
  have hhead' : l.head = some n := hhead
  have hnin : n ∉ rest := (List.nodup_cons.mp hnodup).1
  have hval : nodeData l.mem n = nd.data := by
    unfold nodeData; rw [hnd]; rfl
  cases rest with
  | nil =>
    have hndnext : nd.next = none := by
      unfold nodeNext at hnext; rw [hnd] at hnext; exact hnext
    have htail' : l.tail = some n := htail
    have hclaim : ares__llist_node_claim l (some n) =
        (nd.data,
          { head := none, tail := none, destructSet := l.destructSet,
            cnt := l.cnt - 1, mem := memRemove l.mem n,
            nextId := l.nextId }, []) := by
      simp only [ares__llist_node_claim, hnd, hndprev, hndnext]
      rw [if_pos hhead', if_pos htail']
    rw [hclaim]
    refine ⟨hval.symm, ⟨rfl, rfl, rfl, ?_, List.nodup_nil, ?_, ?_⟩, rfl, ?_⟩
    · have h1 : l.cnt = 1 := hcnt
      show l.cnt - 1 = ([] : List Nat).length
      simp only [List.length_nil]
      omega
    · intro i hi; cases hi
    · have hsub := List.Sublist.map (fun p => p.1) (memRemove_sublist l.mem n)
      exact hkeys.sublist hsub
    · intro x hx; cases hx
  | cons q rest' =>
    have hndnext : nd.next = some q := by
      unfold nodeNext at hnext; rw [hnd] at hnext; exact hnext
    rw [segb_cons] at hseg2
    obtain ⟨hallocq, hprevq, hnextq, hseg3⟩ := hseg2
    obtain ⟨nq, hnq⟩ := Option.isSome_iff_exists.mp hallocq
    have hnqnext : nq.next = rest'.head? := by
      unfold nodeNext at hnextq; rw [hnq] at hnextq; exact hnextq
    have hq_n : q ≠ n := fun hcon =>
      hnin (by rw [← hcon]; exact List.mem_cons_self q rest')
    have hqnotin : q ∉ rest' :=
      (List.nodup_cons.mp (List.nodup_cons.mp hnodup).2).1
    have htail2 : l.tail = (q :: rest').getLast? := by
      rw [htail, List.getLast?_cons_cons]
    have htailne : ¬ l.tail = some n := by
      intro hcon
      exact hnin (List.mem_of_getLast?_eq_some
        (by rw [← htail2]; exact hcon))
    have hclaim : ares__llist_node_claim l (some n) =
        (nd.data,
          { head := some q, tail := l.tail, destructSet := l.destructSet,
            cnt := l.cnt - 1,
            mem := memRemove (memModify l.mem q
              (fun x => { x with prev := none })) n,
            nextId := l.nextId }, []) := by
      simp only [ares__llist_node_claim, hnd, hndprev, hndnext]
      rw [if_pos hhead', if_neg htailne]
    have hgetq : memGet (memRemove (memModify l.mem q
        (fun x => { x with prev := none })) n) q =
        some { nq with prev := none } := by
      rw [memGet_memRemove, if_neg hq_n, memGet_memModify, if_pos rfl, hnq]
      rfl
    have hagree : ∀ i ∈ rest', memGet (memRemove (memModify l.mem q
        (fun x => { x with prev := none })) n) i = memGet l.mem i := by
      intro i hi
      have hin : i ≠ n := fun hcon => hnin (List.mem_cons_of_mem q (hcon ▸ hi))
      have hiq : i ≠ q := fun hcon => hqnotin (hcon ▸ hi)
      rw [memGet_memRemove, if_neg hin, memGet_memModify, if_neg hiq]
    rw [hclaim]
    refine ⟨hval.symm, ⟨?_, rfl, ?_, ?_, ?_, ?_, ?_⟩, rfl, ?_⟩
    · rw [segb_cons]
      refine ⟨by rw [hgetq]; rfl, ?_, ?_,
        segb_congr rest' (some q) hagree hseg3⟩
      · unfold nodePrev; rw [hgetq]; rfl
      · unfold nodeNext; rw [hgetq]; exact hnqnext
    · exact htail2
    · have h1 : l.cnt = (q :: rest').length + 1 := hcnt
      show l.cnt - 1 = (q :: rest').length
      simp only [List.length_cons] at h1 ⊢
      omega
    · exact (List.nodup_cons.mp hnodup).2
    · intro i hi
      exact hfresh i (List.mem_cons_of_mem n hi)
    · have hsub := List.Sublist.map (fun p => p.1)
        (memRemove_sublist (memModify l.mem q
          (fun x => { x with prev := none })) n)
      rw [memModify_keys] at hsub
      exact hkeys.sublist hsub
    · intro x hx
      have hxn : x ≠ n := fun hcon => hnin (hcon ▸ hx)
      have h1 : memGet (memRemove (memModify l.mem q
          (fun x => { x with prev := none })) n) x =
          memGet (memModify l.mem q (fun x => { x with prev := none })) x := by
        rw [memGet_memRemove, if_neg hxn]
      rw [nodeData_congr h1, nodeData_memModify_prev]

theorem destroyLoop_log :
    ∀ (ns : List Nat) (l : LList α) (fuel : Nat),
      Chained l ns → l.destructSet = true →
      (∀ x ∈ ns, (nodeData l.mem x).isSome = true) →
      ns.length ≤ fuel →
      (destroyLoop fuel l).2 = ns.map (nodeData l.mem) := by
  intro ns
  induction ns with
  | nil =>
    intro l fuel h _ _ _
    have hh : l.head = none := h.2.1
    cases fuel with
    | zero => rfl
    | succ f => simp [destroyLoop, ares__llist_node_first, hh]
  | cons n rest ih =>
    intro l fuel h hds hv hlen
    cases fuel with
    | zero => simp at hlen
    | succ f =>
      obtain ⟨hval1, hch2, hds2, hframe⟩ := node_claim_head l n rest h
      have hvn := hv n (List.mem_cons_self n rest)
      obtain ⟨v, hvv⟩ := Option.isSome_iff_exists.mp hvn
      have hdestroy : ares__llist_node_destroy l (some n) =
          ((ares__llist_node_claim l (some n)).2.1, [some v]) := by
        simp only [ares__llist_node_destroy, hval1, hvv, hds, if_true,
          claim_log_nil, List.nil_append]
      have hv2 : ∀ x ∈ rest,
          (nodeData (ares__llist_node_claim l (some n)).2.1.mem x).isSome =
            true := by
        intro x hx
        rw [hframe x hx]
        exact hv x (List.mem_cons_of_mem n hx)
      have hds3 : (ares__llist_node_claim l (some n)).2.1.destructSet = true := by
        rw [hds2]; exact hds
      have hlen2 : rest.length ≤ f := by
        simp only [List.length_cons] at hlen; omega
      have hrec := ih (ares__llist_node_claim l (some n)).2.1 f hch2 hds3 hv2
        hlen2
      have hh : l.head = some n := h.2.1
      show (destroyLoop (f + 1) l).2 = _
      simp only [destroyLoop, ares__llist_node_first, hh, hdestroy]
      rw [hrec, List.map_congr_left hframe, List.map_cons, hvv]
      rfl

/-- C7: for every well formed list state (Chained), with the destructor
set and every linked node holding a non-NULL value, ares__llist_destroy
removes every node and invokes the destructor exactly once per node with
that node's value, in head-to-tail order (the invocation log equals the
chain's values in chain order), then frees the list object; and destroy
of a NULL list is a no-op with no destructor invocation. -/
theorem llist_destroy_destructs_in_order (l : LList α) (ns : List Nat)
    (h : Chained l ns) (hds : l.destructSet = true)
    (hv : ∀ x ∈ ns, (nodeData l.mem x).isSome = true) :
    ares__llist_destroy (some l) = (none, ns.map (nodeData l.mem)) ∧
    ares__llist_destroy (none : Option (LList α)) = (none, []) := by
  constructor
  · have hsubset : ∀ i ∈ ns, i ∈ l.mem.map (fun p => p.1) := by
      intro i hi
      exact memGet_isSome_mem l.mem i (segb_allocated ns none h.1 i hi)
    have hnodup : ns.Nodup := h.2.2.2.2.1
    have hsp := List.subperm_of_subset hnodup hsubset
    have hle := hsp.length_le
    rw [List.length_map] at hle
    have hlog := destroyLoop_log ns l (l.mem.length + 1) h hds hv (by omega)
    simp only [ares__llist_destroy]
    rw [hlog]
  · rfl

theorem llist_destroy_destructs_in_order_inst :
    (Chained (exList [1, 2]) [0, 1] ∧ (exList [1, 2]).destructSet = true ∧
      (∀ x ∈ [0, 1], (nodeData (exList [1, 2]).mem x).isSome = true)) ∧
    (ares__llist_destroy (some (exList [1, 2])) =
      (none, [0, 1].map (nodeData (exList [1, 2]).mem)) ∧
    ares__llist_destroy (none : Option (LList Nat)) = (none, [])) :=
  ⟨⟨by decide, by decide, by decide⟩,
    llist_destroy_destructs_in_order (exList [1, 2]) [0, 1] (by decide)
      (by decide) (by decide)⟩

end CaresLList
